import Mathlib

/-!
Shallow embedding of GoForge's test-skeleton generator: the `testing`
package's `TestTemplate`, `GenerateTests` and `generateTestForFile`.

Modelling conventions:
* A Go source file is represented by its parse result: `parser.ParseFile`
  is an oracle whose outcome (`Option GoFile`) travels with the input,
  since the properties under study concern the filter / render / batch
  driver, not Go's grammar.  A `GoFile` keeps the package name and the
  ordered top-level declaration list (`*ast.FuncDecl` versus any other
  declaration kind, plus whether a function declaration has a receiver).
* File-system effects (`os.Stat` existence probes, `os.MkdirAll`,
  `os.Create`) are explicit state passing over an `FS` record; I/O is
  modelled as infallible, and the statically well-formed template parse
  (`template.New("test").Parse`) as always succeeding.
* `filepath.Walk` is modelled as a depth-first traversal of an `FTree`
  value whose children appear in traversal order; like the real `Walk`,
  the traversal stops as soon as the callback returns a non-nil error.
* Paths are clean slash-separated ASCII strings, so `filepath.Join`,
  `filepath.Dir` and `filepath.Base` reduce to plain string splitting,
  and `ast.IsExported`'s Unicode upper-case test coincides with ASCII
  `Char.isUpper` on the identifiers considered.
* Brace characters inside string literals are written with hexadecimal
  escapes.
-/

namespace GoForge

/-- Split a character list at every occurrence of `sep` (the separator is
dropped; `n` separators yield `n + 1` pieces). -/
def splitOnChar (sep : Char) : List Char → List (List Char)
  | [] => [[]]
  | c :: rest =>
      if c = sep then [] :: splitOnChar sep rest
      else match splitOnChar sep rest with
        | [] => [[c]]
        | l :: ls => (c :: l) :: ls

/-- `strings.HasSuffix s suffix`. -/
def hasSuffix (s suffix : String) : Bool :=
  List.isSuffixOf suffix.data s.data

/-- Whether `s` starts with `pre` (used to speak about dot-prefixed names). -/
def hasPrefixStr (s pre : String) : Bool :=
  List.isPrefixOf pre.data s.data

/-- `strings.TrimSuffix s suffix`: drop the suffix when present. -/
def trimSuffix (s suffix : String) : String :=
  if hasSuffix s suffix then ⟨s.data.take (s.data.length - suffix.data.length)⟩
  else s

/-- Drop the last `n` characters of a string. -/
def dropLastN (s : String) (n : Nat) : String :=
  ⟨s.data.take (s.data.length - n)⟩

/-- `filepath.Join dir name` on clean paths. -/
def joinPath (dir name : String) : String := dir ++ "/" ++ name

/-- `filepath.Base` on clean slash-separated paths: the last component. -/
def baseName (p : String) : String :=
  ⟨(splitOnChar '/' p.data).getLastD []⟩

/-- `filepath.Dir` on clean slash-separated paths: all but the last
component. -/
def dirName (p : String) : String :=
  ⟨List.intercalate ['/'] ((splitOnChar '/' p.data).dropLast)⟩

/-- The lines of a string (split at every newline). -/
def linesOf (s : String) : List (List Char) := splitOnChar '\n' s.data

/-- Join lines with single newlines (inverse of `linesOf` on
newline-free lines). -/
def joinLines : List String → String
  | [] => ""
  | [l] => l
  | l :: ls => l ++ "\n" ++ joinLines ls

/-- How many lines of `ls` satisfy `p`. -/
def countLines (p : List Char → Bool) : List (List Char) → Nat
  | [] => 0
  | l :: ls => (if p l then 1 else 0) + countLines p ls

/-- Whether `pat` occurs as a contiguous substring. -/
def occursIn (pat : List Char) : List Char → Bool
  | [] => pat.isEmpty
  | c :: rest => List.isPrefixOf pat (c :: rest) || occursIn pat rest

/-- A string made of Go identifier characters only (ASCII letters, digits,
underscore); what `parser.ParseFile` can deliver as a declaration name. -/
def isIdentStr (s : String) : Bool :=
  s.data.all (fun c => c.isAlphanum || c == '_')

/-- Newline-free string (auxiliary side condition for line splitting). -/
def noNL (s : String) : Bool :=
  s.data.all (fun c => !(c == '\n'))

/-- One top-level Go declaration as delivered by `parser.ParseFile`:
either an `*ast.FuncDecl` (with its bare name and whether it has a
receiver, i.e. is a method) or any other declaration kind carrying a
name (`ast.GenDecl` entries such as var / const / type). -/
inductive Decl where
  | funcDecl (name : String) (hasReceiver : Bool)
  | genDecl (name : String)
deriving DecidableEq

/-- The bare name of a declaration. -/
def Decl.name : Decl → String
  | .funcDecl n _ => n
  | .genDecl n => n

/-- Whether a declaration is an `*ast.FuncDecl`. -/
def Decl.isFunc : Decl → Bool
  | .funcDecl _ _ => true
  | .genDecl _ => false

/-- Result of a successful `parser.ParseFile`: package name
(`node.Name.Name`) and the ordered declaration list (`node.Decls`). -/
structure GoFile where
  packageName : String
  decls : List Decl
deriving DecidableEq

/-- `ast.IsExported`: the first character is upper case. -/
def isExported (name : String) : Bool :=
  match name.data with
  | [] => false
  | c :: _ => c.isUpper

/-- `FunctionData` from the source: name of a function to test plus the
table-driven flag. -/
structure FunctionData where
  Name : String
  TableDriven : Bool
deriving DecidableEq

/-- `TestData` from the source: template payload. -/
structure TestData where
  Package : String
  Functions : List FunctionData
deriving DecidableEq

/-- The symbol-selection loop of `generateTestForFile`: keep every
`*ast.FuncDecl` whose name satisfies `ast.IsExported`, in source order,
pairing each with the table-driven flag. -/
def findExportedFunctions (decls : List Decl) (tableTests : Bool) : List FunctionData :=
  match decls with
  | [] => []
  | Decl.funcDecl n _ :: rest =>
      if isExported n then
        { Name := n, TableDriven := tableTests } :: findExportedFunctions rest tableTests
      else findExportedFunctions rest tableTests
  | Decl.genDecl _ :: rest => findExportedFunctions rest tableTests

/-- Spec-side view of the filter (stated from the spec's words, for
comparison): the names of the exported function declarations, in order. -/
def exportedFuncNames (decls : List Decl) : List String :=
  (decls.filter (fun d => d.isFunc && isExported d.name)).map Decl.name

/-- The text `TestTemplate` emits for one element of `.Functions` (the
body of the template's `range` block), line by line, exactly as
`text/template` expands it: one list entry per template line, braces
escaped.  The body starts and ends with a newline in the template, hence
the leading and trailing empty lines. -/
def functionBlockLines (f : FunctionData) : List String :=
  [""] ++
  ["func Test" ++ f.Name ++ "(t *testing.T) \x7b"] ++
  ["\t"] ++
  (if f.TableDriven then
    ["\ttests := []struct \x7b",
     "\t\tname string",
     "\t\t// TODO: Add test case inputs and expected outputs",
     "\t\x7d\x7b",
     "\t\t\x7b",
     "\t\t\tname: \x22test case 1\x22,",
     "\t\t\x7d,",
     "\t\t\x7b",
     "\t\t\tname: \x22test case 2\x22,",
     "\t\t\x7d,",
     "\t\x7d",
     "\t",
     "\tfor _, tt := range tests \x7b",
     "\t\tt.Run(tt.name, func(t *testing.T) \x7b",
     "\t\t\t// TODO: Call " ++ f.Name ++ " with the test case inputs and verify outputs",
     "\t\t\x7d)",
     "\t\x7d",
     "\t"]
  else
    ["\t// TODO: Write test for " ++ f.Name,
     "\t"]) ++
  ["\x7d", ""]

/-- The rendered text of one test block. -/
def renderFunctionBlock (f : FunctionData) : String :=
  joinLines (functionBlockLines f)

/-- The part of `TestTemplate` before the `range` action. -/
def renderHeader (pkg : String) : String :=
  "package " ++ pkg ++ "\n\nimport (\n\t\x22testing\x22\n)\n\n"

/-- `tmpl.Execute` on `TestTemplate`: header, one block per function,
and the template's final newline. -/
def renderTestFile (d : TestData) : String :=
  renderHeader d.Package ++ String.join (d.Functions.map renderFunctionBlock) ++ "\n"

/-- File-system state: created files (path and contents) and created
directories. -/
structure FS where
  files : List (String × String)
  dirs : List String
deriving DecidableEq

/-- `os.Stat` existence probe for a file path. -/
def FS.fileExists (fs : FS) (p : String) : Bool :=
  fs.files.any (fun e => e.1 == p)

/-- `os.MkdirAll`. -/
def FS.mkdirAll (fs : FS) (d : String) : FS :=
  if fs.dirs.contains d then fs else { fs with dirs := d :: fs.dirs }

/-- `os.Create` followed by writing `c`. -/
def FS.createFile (fs : FS) (p c : String) : FS :=
  { fs with files := (p, c) :: fs.files }

/-- Outcome of `generateTestForFile` for one unit.  `parseError` and
`alreadyExists` correspond to a non-nil Go error; `skippedNoFunctions`
and `generated` to a nil return (distinguished by the printed message). -/
inductive GenResult where
  | parseError
  | skippedNoFunctions
  | alreadyExists (outputPath : String)
  | generated (outputPath : String)
deriving DecidableEq

/-- Whether the outcome is a non-nil Go error. -/
def GenResult.isError : GenResult → Bool
  | .parseError => true
  | .alreadyExists _ => true
  | _ => false

/-- The output path computed by `generateTestForFile` (lines 267-285):
the source base name with its `.go` suffix replaced by `_test.go`,
placed next to the source or in the override directory. -/
def computeOutputPath (outputDir path : String) : String :=
  let fileName := trimSuffix (baseName path) ".go" ++ "_test.go"
  if outputDir == "" then joinPath (dirName path) fileName
  else joinPath outputDir fileName

/-- Spec-side output-path rule, stated from the spec's words: the
filename obtained by replacing the `.go` suffix of the source base name
with `_test.go`, placed in the source file's own directory or in the
override directory. -/
def specOutputPath (outputDir path : String) : String :=
  let fileName := dropLastN (baseName path) 3 ++ "_test.go"
  if outputDir == "" then joinPath (dirName path) fileName
  else joinPath outputDir fileName

/-- `generateTestForFile`: parse, select exported functions, skip when
none, compute the output path (creating the override directory first),
refuse to overwrite an existing file, otherwise render and write. -/
def generateTestForFile (path : String) (parsed : Option GoFile)
    (outputDir : String) (tableTests : Bool) (fs : FS) : GenResult × FS :=
  match parsed with
  | none => (GenResult.parseError, fs)
  | some node =>
      let functions := findExportedFunctions node.decls tableTests
      if functions.isEmpty then (GenResult.skippedNoFunctions, fs)
      else
        let fs1 := if outputDir == "" then fs else fs.mkdirAll outputDir
        let outputPath := computeOutputPath outputDir path
        if fs1.fileExists outputPath then (GenResult.alreadyExists outputPath, fs1)
        else
          (GenResult.generated outputPath,
           fs1.createFile outputPath
             (renderTestFile { Package := node.packageName, Functions := functions }))

/-- A directory tree as visited by `filepath.Walk`: children listed in
traversal order; each file carries its parse-oracle outcome. -/
inductive FTree where
  | file (name : String) (parsed : Option GoFile)
  | dir (name : String) (children : List FTree)

/-- The walk callback's candidate test (line 225): a non-directory whose
path ends in `.go` but not in `_test.go`. -/
def isGoCandidate (p : String) : Bool :=
  hasSuffix p ".go" && !hasSuffix p "_test.go"

mutual

/-- One `filepath.Walk` step on an entry under `base`.  For a candidate
file the callback runs `generateTestForFile` and returns its error (a
non-nil error stops the walk); for a directory the walk descends into
every child unconditionally. -/
def walkTree (outputDir : String) (tableTests : Bool) (base : String) :
    FTree → FS → Option GenResult × FS
  | FTree.file name parsed, fs =>
      let p := joinPath base name
      if isGoCandidate p then
        let r := generateTestForFile p parsed outputDir tableTests fs
        (if r.1.isError then some r.1 else none, r.2)
      else (none, fs)
  | FTree.dir name children, fs =>
      walkTreeList outputDir tableTests (joinPath base name) children fs

/-- `filepath.Walk` over a sibling list: entries in order, stopping at
the first non-nil callback error. -/
def walkTreeList (outputDir : String) (tableTests : Bool) (base : String) :
    List FTree → FS → Option GenResult × FS
  | [], fs => (none, fs)
  | t :: ts, fs =>
      match walkTree outputDir tableTests base t fs with
      | (some e, fs2) => (some e, fs2)
      | (none, fs2) => walkTreeList outputDir tableTests base ts fs2

end

/-- The root argument of `GenerateTests` after `os.Stat`: a single file
(with its parse outcome) or a directory with its tree of children. -/
inductive RootPath where
  | file (path : String) (parsed : Option GoFile)
  | dir (path : String) (children : List FTree)

/-- Error returned by `GenerateTests`: a unit error propagated out of
the walk (or out of single-file processing), or the structural
"path must be a directory or a Go file" error. -/
inductive BatchError where
  | unitError (r : GenResult)
  | notGoFile
deriving DecidableEq

/-- `GenerateTests` (lines 218-237): walk a directory root, or process a
single `.go` (non-`_test.go`) file, or fail structurally. -/
def GenerateTests : RootPath → String → Bool → FS → Option BatchError × FS
  | RootPath.dir path children, outputDir, tableTests, fs =>
      let r := walkTreeList outputDir tableTests path children fs
      (r.1.map BatchError.unitError, r.2)
  | RootPath.file path parsed, outputDir, tableTests, fs =>
      if isGoCandidate path then
        let r := generateTestForFile path parsed outputDir tableTests fs
        (if r.1.isError then some (BatchError.unitError r.1) else none, r.2)
      else (some BatchError.notGoFile, fs)

/-- The `shapes` unit of the concrete scenario: exported function
`Area`, unexported function `perimeter`, exported non-function
declaration `DefaultColor`. -/
def shapesUnit : GoFile :=
  { packageName := "shapes",
    decls := [Decl.funcDecl "Area" false,
              Decl.funcDecl "perimeter" false,
              Decl.genDecl "DefaultColor"] }

/-- Erase the receiver flag of every function declaration (turn every
method into a free function of the same name). -/
def eraseReceivers : List Decl → List Decl
  | [] => []
  | Decl.funcDecl n _ :: rest => Decl.funcDecl n false :: eraseReceivers rest
  | Decl.genDecl n :: rest => Decl.genDecl n :: eraseReceivers rest

/-- Line pattern: a table-case declaration (`name: "test case `...). -/
def caseNameMarker : List Char := "\t\t\tname: \x22test case ".data

/-- Line pattern: the first table case. -/
def caseOneMarker : List Char := "\t\t\tname: \x22test case 1\x22,".data

/-- Line pattern: the second table case. -/
def caseTwoMarker : List Char := "\t\t\tname: \x22test case 2\x22,".data

/-- Line pattern: the table literal opening (`tests := []struct `...). -/
def tableOpenMarker : List Char := "\ttests := []struct ".data

/-- Line pattern: the loop over the cases (`for _, tt := range tests `...). -/
def tableLoopMarker : List Char := "\tfor _, tt := range tests ".data

theorem splitOnChar_ne_nil (sep : Char) (s : List Char) : splitOnChar sep s ≠ [] := by
  induction s with
  | nil => simp [splitOnChar]
  | cons c rest ih =>
      simp only [splitOnChar]
      by_cases h : c = sep
      · simp [h]
      · simp only [if_neg h]
        cases hh : splitOnChar sep rest with
        | nil => simp
        | cons l ls => simp

theorem splitOnChar_cons_ne (sep c : Char) (s : List Char) (h : c ≠ sep) :
    splitOnChar sep (c :: s) =
      (c :: (splitOnChar sep s).headD []) :: (splitOnChar sep s).tail := by
  simp only [splitOnChar, if_neg h]
  cases hh : splitOnChar sep s with
  | nil => exact absurd hh (splitOnChar_ne_nil sep s)
  | cons l ls => simp

theorem splitOnChar_splice (sep : Char) (u s : List Char) (h : ∀ c ∈ u, c ≠ sep) :
    splitOnChar sep (u ++ sep :: s) = u :: splitOnChar sep s := by
  induction u with
  | nil => simp [splitOnChar]
  | cons c u' ih =>
      have hc : c ≠ sep := h c (by simp)
      have ih' := ih (fun x hx => h x (by simp [hx]))
      rw [List.cons_append, splitOnChar_cons_ne sep c _ hc, ih']
      simp

theorem splitOnChar_sepFree (sep : Char) (u : List Char) (h : ∀ c ∈ u, c ≠ sep) :
    splitOnChar sep u = [u] := by
  induction u with
  | nil => rfl
  | cons c u' ih =>
      have hc : c ≠ sep := h c (by simp)
      have ih' := ih (fun x hx => h x (by simp [hx]))
      rw [splitOnChar_cons_ne sep c _ hc, ih']
      simp

theorem isPrefixOf_append_false (pat A y : List Char)
    (h : List.isPrefixOf (pat.take A.length) A = false) :
    List.isPrefixOf pat (A ++ y) = false := by
  induction pat generalizing A with
  | nil => simp [List.isPrefixOf] at h
  | cons a p ih =>
      cases A with
      | nil => simp [List.isPrefixOf] at h
      | cons b A' =>
          simp only [List.length_cons, List.take_succ_cons, List.isPrefixOf] at h ⊢
          cases hab : (a == b) with
          | false => simp [hab]
          | true => simp only [hab, Bool.true_and] at h ⊢; exact ih A' h

theorem notPrefix_concat3 (pat : List Char) (A n B : String)
    (h : List.isPrefixOf (pat.take A.data.length) A.data = false) :
    List.isPrefixOf pat ((A ++ n ++ B).data) = false := by
  have e : (A ++ n ++ B).data = A.data ++ (n.data ++ B.data) := by
    rw [String.data_append, String.data_append, List.append_assoc]
  rw [e]
  exact isPrefixOf_append_false pat A.data (n.data ++ B.data) h

theorem notPrefix_concat2 (pat : List Char) (A n : String)
    (h : List.isPrefixOf (pat.take A.data.length) A.data = false) :
    List.isPrefixOf pat ((A ++ n).data) = false := by
  rw [String.data_append]
  exact isPrefixOf_append_false pat A.data n.data h

theorem noNL_append (a b : String) : noNL (a ++ b) = (noNL a && noNL b) := by
  unfold noNL
  rw [String.data_append, List.all_append]

theorem noNL_chars (l : String) (h : noNL l = true) : ∀ c ∈ l.data, c ≠ '\n' := by
  unfold noNL at h
  rw [List.all_eq_true] at h
  intro c hc e
  have h2 := h c hc
  rw [e] at h2
  simp at h2

theorem identStr_noNL (n : String) (h : isIdentStr n = true) : noNL n = true := by
  unfold isIdentStr at h
  unfold noNL
  rw [List.all_eq_true] at h ⊢
  intro c hc
  have h2 := h c hc
  by_cases e : c = '\n'
  · subst e; simp at h2
  · simp [e]

theorem linesOf_joinLines (L : List String) (hne : L ≠ []) (h : ∀ l ∈ L, noNL l = true) :
    linesOf (joinLines L) = L.map String.data := by
  induction L with
  | nil => exact absurd rfl hne
  | cons l ls ih =>
      cases ls with
      | nil =>
          show splitOnChar '\n' l.data = [l.data]
          exact splitOnChar_sepFree '\n' l.data (noNL_chars l (h l (by simp)))
      | cons l2 ls2 =>
          have hdata : (joinLines (l :: l2 :: ls2)).data
              = l.data ++ '\n' :: (joinLines (l2 :: ls2)).data := by
            show (l ++ "\n" ++ joinLines (l2 :: ls2)).data = _
            rw [String.data_append, String.data_append]
            simp
          unfold linesOf
          rw [hdata, splitOnChar_splice _ _ _ (noNL_chars l (h l (by simp)))]
          have := ih (by simp) (fun x hx => h x (by simp [hx]))
          unfold linesOf at this
          rw [this]
          simp

theorem countLines_append (p : List Char → Bool) (x y : List (List Char)) :
    countLines p (x ++ y) = countLines p x + countLines p y := by
  induction x with
  | nil => simp [countLines]
  | cons l ls ih => simp [countLines, ih]; omega

theorem FS.mkdirAll_files (fs : FS) (d : String) : (fs.mkdirAll d).files = fs.files := by
  unfold FS.mkdirAll
  split <;> rfl

theorem FS.fileExists_mkdirAll (fs : FS) (d p : String) :
    (fs.mkdirAll d).fileExists p = fs.fileExists p := by
  unfold FS.fileExists
  rw [FS.mkdirAll_files]

theorem FS.mkdirAll_contains (fs : FS) (d : String) :
    (fs.mkdirAll d).dirs.contains d = true := by
  unfold FS.mkdirAll
  split
  · assumption
  · simp

theorem functionBlockLines_noNL (f : FunctionData) (h : isIdentStr f.Name = true) :
    ∀ l ∈ functionBlockLines f, noNL l = true := by
  obtain ⟨n, td⟩ := f
  have hn : noNL n = true := identStr_noNL n h
  have hn2 : noNL ("func Test" ++ n ++ "(t *testing.T) \x7b") = true := by
    rw [noNL_append, noNL_append, hn]; decide
  have hn3 : noNL ("\t\t\t// TODO: Call " ++ n ++ " with the test case inputs and verify outputs") = true := by
    rw [noNL_append, noNL_append, hn]; decide
  have hn4 : noNL ("\t// TODO: Write test for " ++ n) = true := by
    rw [noNL_append, hn]; decide
  rw [← List.all_eq_true]
  cases td
  · have e : functionBlockLines ⟨n, false⟩ =
        ["", "func Test" ++ n ++ "(t *testing.T) \x7b", "\t",
         "\t// TODO: Write test for " ++ n, "\t", "\x7d", ""] := rfl
    rw [e]
    simp only [List.all_cons, List.all_nil, hn2, hn4,
      Bool.and_eq_true, Bool.true_and, Bool.and_true]
    decide
  · have e : functionBlockLines ⟨n, true⟩ =
        ["", "func Test" ++ n ++ "(t *testing.T) \x7b", "\t",
         "\ttests := []struct \x7b",
         "\t\tname string",
         "\t\t// TODO: Add test case inputs and expected outputs",
         "\t\x7d\x7b",
         "\t\t\x7b",
         "\t\t\tname: \x22test case 1\x22,",
         "\t\t\x7d,",
         "\t\t\x7b",
         "\t\t\tname: \x22test case 2\x22,",
         "\t\t\x7d,",
         "\t\x7d",
         "\t",
         "\tfor _, tt := range tests \x7b",
         "\t\tt.Run(tt.name, func(t *testing.T) \x7b",
         "\t\t\t// TODO: Call " ++ n ++ " with the test case inputs and verify outputs",
         "\t\t\x7d)",
         "\t\x7d",
         "\t", "\x7d", ""] := rfl
    rw [e]
    simp only [List.all_cons, List.all_nil, hn2, hn3,
      Bool.and_eq_true, Bool.true_and, Bool.and_true]
    decide

theorem linesOf_renderFunctionBlock (f : FunctionData) (h : isIdentStr f.Name = true) :
    linesOf (renderFunctionBlock f) = (functionBlockLines f).map String.data := by
  unfold renderFunctionBlock
  refine linesOf_joinLines _ ?_ (functionBlockLines_noNL f h)
  obtain ⟨n, td⟩ := f
  cases td <;> simp [functionBlockLines]

theorem isEmpty_false {α : Type} (l : List α) (h : l ≠ []) : l.isEmpty = false := by
  cases l with
  | nil => exact absurd rfl h
  | cons a t => rfl

theorem FS.createFile_dirs (fs : FS) (p c : String) : (fs.createFile p c).dirs = fs.dirs := rfl

theorem findExported_eraseReceivers (ds : List Decl) (tableTests : Bool) :
    findExportedFunctions (eraseReceivers ds) tableTests
      = findExportedFunctions ds tableTests := by
  induction ds with
  | nil => rfl
  | cons d rest ih =>
      cases d with
      | funcDecl m rr => simp [eraseReceivers, findExportedFunctions, ih]
      | genDecl m => simp [eraseReceivers, findExportedFunctions, ih]

/-- C4: for every syntactically valid source unit containing zero exported
function declarations, `generateTestForFile` returns the skipped (non-error)
outcome and leaves the file system untouched: no output file is written. -/
theorem no_exported_functions_skips
    (path : String) (node : GoFile) (outputDir : String) (tableTests : Bool) (fs : FS)
    (h : findExportedFunctions node.decls tableTests = []) :
    generateTestForFile path (some node) outputDir tableTests fs
      = (GenResult.skippedNoFunctions, fs)
    ∧ GenResult.isError
        (generateTestForFile path (some node) outputDir tableTests fs).1 = false := by
  have e : generateTestForFile path (some node) outputDir tableTests fs
      = (GenResult.skippedNoFunctions, fs) := by
    simp [generateTestForFile, h]
  exact ⟨e, by rw [e]; rfl⟩

/-- Witness for C4 at a concrete unit with an unexported function and an
exported non-function declaration. -/
theorem no_exported_functions_skips_witness :
    generateTestForFile "/src/util.go"
        (some ⟨"util", [Decl.funcDecl "helper" false, Decl.genDecl "Exported"]⟩)
        "" false ⟨[], []⟩
      = (GenResult.skippedNoFunctions, ⟨[], []⟩)
    ∧ GenResult.isError
        (generateTestForFile "/src/util.go"
          (some ⟨"util", [Decl.funcDecl "helper" false, Decl.genDecl "Exported"]⟩)
          "" false ⟨[], []⟩).1 = false :=
  no_exported_functions_skips "/src/util.go"
    ⟨"util", [Decl.funcDecl "helper" false, Decl.genDecl "Exported"]⟩
    "" false ⟨[], []⟩ (by decide)

/-- C3: when the computed companion path of a unit that would otherwise
generate output already exists, processing fails with the "already exists"
outcome and the file map — in particular the pre-existing file's contents —
is unchanged: the existing file is never opened or written. -/
theorem collision_refuses_overwrite
    (path : String) (node : GoFile) (outputDir : String) (tableTests : Bool) (fs : FS)
    (hfn : findExportedFunctions node.decls tableTests ≠ [])
    (hex : fs.fileExists (computeOutputPath outputDir path) = true) :
    (generateTestForFile path (some node) outputDir tableTests fs).1
        = GenResult.alreadyExists (computeOutputPath outputDir path)
    ∧ (generateTestForFile path (some node) outputDir tableTests fs).2.files = fs.files := by
  have hne := isEmpty_false _ hfn
  cases hod : (outputDir == "") with
  | true =>
      constructor <;>
        simp [generateTestForFile, hne, hod, hex]
  | false =>
      constructor <;>
        simp [generateTestForFile, hne, hod, FS.fileExists_mkdirAll, hex, FS.mkdirAll_files]

/-- Witness for C3: the companion of `/src/a.go` already exists. -/
theorem collision_refuses_overwrite_witness :
    (generateTestForFile "/src/a.go" (some ⟨"a", [Decl.funcDecl "Area" false]⟩)
        "" false ⟨[("/src/a_test.go", "old contents")], []⟩).1
      = GenResult.alreadyExists (computeOutputPath "" "/src/a.go")
    ∧ (generateTestForFile "/src/a.go" (some ⟨"a", [Decl.funcDecl "Area" false]⟩)
        "" false ⟨[("/src/a_test.go", "old contents")], []⟩).2.files
      = [("/src/a_test.go", "old contents")] :=
  collision_refuses_overwrite "/src/a.go" ⟨"a", [Decl.funcDecl "Area" false]⟩
    "" false ⟨[("/src/a_test.go", "old contents")], []⟩ (by decide) (by decide)

/-- C8: the computed companion path follows the spec's rule — the source
base name with its `.go` suffix replaced by `_test.go`, placed next to the
source when no override directory is given and inside the override
directory otherwise — and for a unit that reaches the output stage the
override directory is created if absent. -/
theorem output_path_rule
    (outputDir path : String) (node : GoFile) (tableTests : Bool) (fs : FS)
    (hgo : hasSuffix (baseName path) ".go" = true)
    (hfn : findExportedFunctions node.decls tableTests ≠ []) :
    computeOutputPath outputDir path = specOutputPath outputDir path
    ∧ (outputDir ≠ "" →
        (generateTestForFile path (some node) outputDir tableTests fs).2.dirs.contains
          outputDir = true) := by
  constructor
  · unfold computeOutputPath specOutputPath
    have e : trimSuffix (baseName path) ".go" = dropLastN (baseName path) 3 := by
      unfold trimSuffix dropLastN
      rw [if_pos hgo]
      have e3 : ".go".data.length = 3 := rfl
      rw [e3]
    rw [e]
  · intro hod
    have hodb : (outputDir == "") = false := by
      cases e : (outputDir == "") with
      | true => exact absurd (eq_of_beq e) hod
      | false => rfl
    have hne := isEmpty_false _ hfn
    simp only [generateTestForFile, hne, hodb, Bool.false_eq_true, if_false]
    split
    · exact FS.mkdirAll_contains fs outputDir
    · rw [FS.createFile_dirs]
      exact FS.mkdirAll_contains fs outputDir

/-- Witness for C8 with an override directory. -/
theorem output_path_rule_witness :
    computeOutputPath "out" "/src/a.go" = specOutputPath "out" "/src/a.go"
    ∧ ("out" ≠ "" →
        (generateTestForFile "/src/a.go" (some ⟨"a", [Decl.funcDecl "Area" false]⟩)
          "out" false ⟨[], []⟩).2.dirs.contains "out" = true) :=
  output_path_rule "out" "/src/a.go" ⟨"a", [Decl.funcDecl "Area" false]⟩ false ⟨[], []⟩
    (by decide) (by decide)

/-- C9: the symbol filter keeps every function declaration with an exported
name regardless of whether it has a receiver, under its bare name, and the
whole per-unit pipeline is invariant under turning methods into free
functions of the same name. -/
theorem methods_included (n : String) (r : Bool) (ds : List Decl) (tableTests : Bool) :
    (findExportedFunctions (Decl.funcDecl n r :: ds) tableTests =
      (if isExported n then [{ Name := n, TableDriven := tableTests }] else [])
        ++ findExportedFunctions ds tableTests)
    ∧ (∀ (path outputDir pkg : String) (fs : FS),
        generateTestForFile path (some ⟨pkg, ds⟩) outputDir tableTests fs
          = generateTestForFile path (some ⟨pkg, eraseReceivers ds⟩) outputDir tableTests fs) := by
  constructor
  · by_cases h : isExported n = true
    · simp [findExportedFunctions, h]
    · rw [Bool.not_eq_true] at h
      simp [findExportedFunctions, h]
  · intro path outputDir pkg fs
    simp [generateTestForFile, findExported_eraseReceivers]

/-- C10: with an output directory override, the output filename depends
only on the source base name, so two candidates with equal base names map
to the same output path; after the first generates, the second fails with
"already exists" and writes nothing. -/
theorem override_basename_collision
    (outputDir p1 p2 : String) (u1 u2 : GoFile) (tableTests : Bool) (fs : FS)
    (hod : outputDir ≠ "")
    (hbase : baseName p1 = baseName p2)
    (hfn1 : findExportedFunctions u1.decls tableTests ≠ [])
    (hfn2 : findExportedFunctions u2.decls tableTests ≠ [])
    (hfree : fs.fileExists (computeOutputPath outputDir p1) = false) :
    computeOutputPath outputDir p1 = computeOutputPath outputDir p2
    ∧ (generateTestForFile p1 (some u1) outputDir tableTests fs).1
        = GenResult.generated (computeOutputPath outputDir p1)
    ∧ (generateTestForFile p2 (some u2) outputDir tableTests
         (generateTestForFile p1 (some u1) outputDir tableTests fs).2).1
        = GenResult.alreadyExists (computeOutputPath outputDir p2)
    ∧ (generateTestForFile p2 (some u2) outputDir tableTests
         (generateTestForFile p1 (some u1) outputDir tableTests fs).2).2.files
        = (generateTestForFile p1 (some u1) outputDir tableTests fs).2.files := by
  have hodb : (outputDir == "") = false := by
    cases e : (outputDir == "") with
    | true => exact absurd (eq_of_beq e) hod
    | false => rfl
  have hop : computeOutputPath outputDir p1 = computeOutputPath outputDir p2 := by
    simp [computeOutputPath, hodb, hbase]
  have hne1 := isEmpty_false _ hfn1
  have hne2 := isEmpty_false _ hfn2
  have e1 : generateTestForFile p1 (some u1) outputDir tableTests fs
      = (GenResult.generated (computeOutputPath outputDir p1),
         (fs.mkdirAll outputDir).createFile (computeOutputPath outputDir p1)
           (renderTestFile { Package := u1.packageName,
                             Functions := findExportedFunctions u1.decls tableTests })) := by
    simp [generateTestForFile, hne1, hodb, FS.fileExists_mkdirAll, hfree]
  refine ⟨hop, by rw [e1], ?_, ?_⟩ <;>
  · rw [e1]
    have hex2 : (((fs.mkdirAll outputDir).createFile (computeOutputPath outputDir p1)
          (renderTestFile { Package := u1.packageName,
                            Functions := findExportedFunctions u1.decls tableTests })).mkdirAll
            outputDir).fileExists (computeOutputPath outputDir p2) = true := by
      rw [FS.fileExists_mkdirAll, ← hop]
      simp [FS.fileExists, FS.createFile]
    simp [generateTestForFile, hne2, hodb, hex2, FS.mkdirAll_files]

/-- Witness for C10: `a/util.go` and `b/util.go` with override `out`. -/
theorem override_basename_collision_witness :
    computeOutputPath "out" "/r/a/util.go" = computeOutputPath "out" "/r/b/util.go"
    ∧ (generateTestForFile "/r/a/util.go" (some ⟨"a", [Decl.funcDecl "A" false]⟩)
        "out" false ⟨[], []⟩).1
        = GenResult.generated (computeOutputPath "out" "/r/a/util.go")
    ∧ (generateTestForFile "/r/b/util.go" (some ⟨"b", [Decl.funcDecl "B" false]⟩)
        "out" false
        (generateTestForFile "/r/a/util.go" (some ⟨"a", [Decl.funcDecl "A" false]⟩)
          "out" false ⟨[], []⟩).2).1
        = GenResult.alreadyExists (computeOutputPath "out" "/r/b/util.go")
    ∧ (generateTestForFile "/r/b/util.go" (some ⟨"b", [Decl.funcDecl "B" false]⟩)
        "out" false
        (generateTestForFile "/r/a/util.go" (some ⟨"a", [Decl.funcDecl "A" false]⟩)
          "out" false ⟨[], []⟩).2).2.files
        = (generateTestForFile "/r/a/util.go" (some ⟨"a", [Decl.funcDecl "A" false]⟩)
          "out" false ⟨[], []⟩).2.files :=
  override_basename_collision "out" "/r/a/util.go" "/r/b/util.go"
    ⟨"a", [Decl.funcDecl "A" false]⟩ ⟨"b", [Decl.funcDecl "B" false]⟩ false ⟨[], []⟩
    (by decide) (by decide) (by decide) (by decide) (by decide)

theorem functionBlockLines_true (n : String) :
    functionBlockLines ⟨n, true⟩ =
      ["", "func Test" ++ n ++ "(t *testing.T) \x7b", "\t",
       "\ttests := []struct \x7b",
       "\t\tname string",
       "\t\t// TODO: Add test case inputs and expected outputs",
       "\t\x7d\x7b",
       "\t\t\x7b",
       "\t\t\tname: \x22test case 1\x22,",
       "\t\t\x7d,",
       "\t\t\x7b",
       "\t\t\tname: \x22test case 2\x22,",
       "\t\t\x7d,",
       "\t\x7d",
       "\t",
       "\tfor _, tt := range tests \x7b",
       "\t\tt.Run(tt.name, func(t *testing.T) \x7b",
       "\t\t\t// TODO: Call " ++ n ++ " with the test case inputs and verify outputs",
       "\t\t\x7d)",
       "\t\x7d",
       "\t", "\x7d", ""] := rfl

theorem functionBlockLines_false (n : String) :
    functionBlockLines ⟨n, false⟩ =
      ["", "func Test" ++ n ++ "(t *testing.T) \x7b", "\t",
       "\t// TODO: Write test for " ++ n, "\t", "\x7d", ""] := rfl

theorem isPrefixOf_self_append (l t : List Char) : List.isPrefixOf l (l ++ t) = true := by
  induction l with
  | nil => simp [List.isPrefixOf]
  | cons a as ih => simp [List.isPrefixOf, ih]

theorem exportedFuncNames_cons_func (n : String) (r : Bool) (rest : List Decl) :
    exportedFuncNames (Decl.funcDecl n r :: rest)
      = (if isExported n then [n] else []) ++ exportedFuncNames rest := by
  cases h : isExported n <;>
    simp [exportedFuncNames, List.filter_cons, Decl.isFunc, Decl.name, h]

theorem exportedFuncNames_cons_gen (n : String) (rest : List Decl) :
    exportedFuncNames (Decl.genDecl n :: rest) = exportedFuncNames rest := by
  simp [exportedFuncNames, List.filter_cons, Decl.isFunc]

/-- C5: on the `shapes` unit exactly `Area` is selected; the rendered
output contains exactly one test block, the one named from `Area`, and
mentions neither `perimeter` nor `DefaultColor`; in general the selected
symbols are exactly the exported function declarations in source order. -/
theorem exported_filter_selection :
    (∀ tableTests : Bool,
      findExportedFunctions shapesUnit.decls tableTests
        = [{ Name := "Area", TableDriven := tableTests }])
    ∧ countLines (fun l => List.isPrefixOf ("func Test".data) l)
        (linesOf (renderTestFile
          { Package := "shapes",
            Functions := findExportedFunctions shapesUnit.decls false })) = 1
    ∧ ("func TestArea(t *testing.T) \x7b".data) ∈
        linesOf (renderTestFile
          { Package := "shapes",
            Functions := findExportedFunctions shapesUnit.decls false })
    ∧ occursIn ("Area".data)
        (renderTestFile
          { Package := "shapes",
            Functions := findExportedFunctions shapesUnit.decls false }).data = true
    ∧ occursIn ("perimeter".data)
        (renderTestFile
          { Package := "shapes",
            Functions := findExportedFunctions shapesUnit.decls false }).data = false
    ∧ occursIn ("DefaultColor".data)
        (renderTestFile
          { Package := "shapes",
            Functions := findExportedFunctions shapesUnit.decls false }).data = false
    ∧ (∀ (decls : List Decl) (tableTests : Bool),
        findExportedFunctions decls tableTests
          = (exportedFuncNames decls).map
              (fun nm => { Name := nm, TableDriven := tableTests })) := by
  refine ⟨?_, by decide, by decide, by decide, by decide, by decide, ?_⟩
  · intro tt; cases tt <;> rfl
  · intro decls tt
    induction decls with
    | nil => rfl
    | cons d rest ih =>
        cases d with
        | funcDecl n r =>
            rw [exportedFuncNames_cons_func]
            cases h : isExported n with
            | true => simp [findExportedFunctions, h, ih]
            | false => simp [findExportedFunctions, h, ih]
        | genDecl n =>
            rw [exportedFuncNames_cons_gen]
            simp [findExportedFunctions, ih]

/-- C6: with the table-driven flag set, every emitted test block declares
exactly two named cases — one line for `"test case 1"`, one for
`"test case 2"`, and no other case-name line — whatever the request's
symbol list is. -/
theorem table_driven_two_cases (d : TestData) (f : FunctionData)
    (hf : f ∈ d.Functions) (hident : isIdentStr f.Name = true)
    (htd : f.TableDriven = true) :
    countLines (fun l => List.isPrefixOf caseNameMarker l)
        (linesOf (renderFunctionBlock f)) = 2
    ∧ countLines (fun l => List.isPrefixOf caseOneMarker l)
        (linesOf (renderFunctionBlock f)) = 1
    ∧ countLines (fun l => List.isPrefixOf caseTwoMarker l)
        (linesOf (renderFunctionBlock f)) = 1
    ∧ caseOneMarker ∈ linesOf (renderFunctionBlock f)
    ∧ caseTwoMarker ∈ linesOf (renderFunctionBlock f) := by
  obtain ⟨n, td⟩ := f
  cases td
  · simp at htd
  · have hl := linesOf_renderFunctionBlock ⟨n, true⟩ hident
    rw [functionBlockLines_true] at hl
    have h1 : List.isPrefixOf caseNameMarker
        (("func Test" ++ n ++ "(t *testing.T) \x7b").data) = false :=
      notPrefix_concat3 _ "func Test" n _ (by decide)
    have h2 : List.isPrefixOf caseNameMarker
        (("\t\t\t// TODO: Call " ++ n ++ " with the test case inputs and verify outputs").data) = false :=
      notPrefix_concat3 _ "\t\t\t// TODO: Call " n _ (by decide)
    have h3 : List.isPrefixOf caseOneMarker
        (("func Test" ++ n ++ "(t *testing.T) \x7b").data) = false :=
      notPrefix_concat3 _ "func Test" n _ (by decide)
    have h4 : List.isPrefixOf caseOneMarker
        (("\t\t\t// TODO: Call " ++ n ++ " with the test case inputs and verify outputs").data) = false :=
      notPrefix_concat3 _ "\t\t\t// TODO: Call " n _ (by decide)
    have h5 : List.isPrefixOf caseTwoMarker
        (("func Test" ++ n ++ "(t *testing.T) \x7b").data) = false :=
      notPrefix_concat3 _ "func Test" n _ (by decide)
    have h6 : List.isPrefixOf caseTwoMarker
        (("\t\t\t// TODO: Call " ++ n ++ " with the test case inputs and verify outputs").data) = false :=
      notPrefix_concat3 _ "\t\t\t// TODO: Call " n _ (by decide)
    rw [hl]
    simp only [List.map_cons, List.map_nil]
    refine ⟨?_, ?_, ?_, ?_, ?_⟩
    · simp only [countLines, h1, h2]; decide
    · simp only [countLines, h3, h4]; decide
    · simp only [countLines, h5, h6]; decide
    · simp [caseOneMarker]
    · simp [caseTwoMarker]

/-- Witness for C6 at the request containing only the symbol `Area`. -/
theorem table_driven_two_cases_witness :
    countLines (fun l => List.isPrefixOf caseNameMarker l)
        (linesOf (renderFunctionBlock ⟨"Area", true⟩)) = 2
    ∧ countLines (fun l => List.isPrefixOf caseOneMarker l)
        (linesOf (renderFunctionBlock ⟨"Area", true⟩)) = 1
    ∧ countLines (fun l => List.isPrefixOf caseTwoMarker l)
        (linesOf (renderFunctionBlock ⟨"Area", true⟩)) = 1
    ∧ caseOneMarker ∈ linesOf (renderFunctionBlock ⟨"Area", true⟩)
    ∧ caseTwoMarker ∈ linesOf (renderFunctionBlock ⟨"Area", true⟩) :=
  table_driven_two_cases ⟨"p", [⟨"Area", true⟩]⟩ ⟨"Area", true⟩
    (by decide) (by decide) rfl

/-- C7: with the table-driven flag cleared, every emitted test block is
exactly the seven-line skeleton holding a single placeholder comment that
references the symbol's name, with no table literal, no case-name line and
no loop over cases. -/
theorem flat_block_single_placeholder (d : TestData) (f : FunctionData)
    (hf : f ∈ d.Functions) (hident : isIdentStr f.Name = true)
    (htd : f.TableDriven = false) :
    linesOf (renderFunctionBlock f)
      = [[], ("func Test" ++ f.Name ++ "(t *testing.T) \x7b").data, "\t".data,
         ("\t// TODO: Write test for " ++ f.Name).data, "\t".data, "\x7d".data, []]
    ∧ countLines (fun l => List.isPrefixOf tableOpenMarker l)
        (linesOf (renderFunctionBlock f)) = 0
    ∧ countLines (fun l => List.isPrefixOf tableLoopMarker l)
        (linesOf (renderFunctionBlock f)) = 0
    ∧ countLines (fun l => List.isPrefixOf caseNameMarker l)
        (linesOf (renderFunctionBlock f)) = 0
    ∧ countLines (fun l => List.isPrefixOf ("\t// TODO: Write test for ".data) l)
        (linesOf (renderFunctionBlock f)) = 1 := by
  obtain ⟨n, td⟩ := f
  cases td
  case true => simp at htd
  case false =>
    have hl := linesOf_renderFunctionBlock ⟨n, false⟩ hident
    rw [functionBlockLines_false] at hl
    have e1 : List.isPrefixOf tableOpenMarker
        (("func Test" ++ n ++ "(t *testing.T) \x7b").data) = false :=
      notPrefix_concat3 _ "func Test" n _ (by decide)
    have e2 : List.isPrefixOf tableOpenMarker
        (("\t// TODO: Write test for " ++ n).data) = false :=
      notPrefix_concat2 _ "\t// TODO: Write test for " n (by decide)
    have e3 : List.isPrefixOf tableLoopMarker
        (("func Test" ++ n ++ "(t *testing.T) \x7b").data) = false :=
      notPrefix_concat3 _ "func Test" n _ (by decide)
    have e4 : List.isPrefixOf tableLoopMarker
        (("\t// TODO: Write test for " ++ n).data) = false :=
      notPrefix_concat2 _ "\t// TODO: Write test for " n (by decide)
    have e5 : List.isPrefixOf caseNameMarker
        (("func Test" ++ n ++ "(t *testing.T) \x7b").data) = false :=
      notPrefix_concat3 _ "func Test" n _ (by decide)
    have e6 : List.isPrefixOf caseNameMarker
        (("\t// TODO: Write test for " ++ n).data) = false :=
      notPrefix_concat2 _ "\t// TODO: Write test for " n (by decide)
    have e7 : List.isPrefixOf ("\t// TODO: Write test for ".data)
        (("func Test" ++ n ++ "(t *testing.T) \x7b").data) = false :=
      notPrefix_concat3 _ "func Test" n _ (by decide)
    have e8 : List.isPrefixOf ("\t// TODO: Write test for ".data)
        (("\t// TODO: Write test for " ++ n).data) = true := by
      rw [String.data_append]
      exact isPrefixOf_self_append _ _
    rw [hl]
    simp only [List.map_cons, List.map_nil, show ("" : String).data = [] from rfl]
    refine ⟨by trivial, ?_, ?_, ?_, ?_⟩
    · simp only [countLines, e1, e2]; decide
    · simp only [countLines, e3, e4]; decide
    · simp only [countLines, e5, e6]; decide
    · simp only [countLines, e7, e8]; decide

/-- Witness for C7 at the request containing only the symbol `Parse`. -/
theorem flat_block_single_placeholder_witness :
    linesOf (renderFunctionBlock ⟨"Parse", false⟩)
      = [[], ("func Test" ++ "Parse" ++ "(t *testing.T) \x7b").data, "\t".data,
         ("\t// TODO: Write test for " ++ "Parse").data, "\t".data, "\x7d".data, []]
    ∧ countLines (fun l => List.isPrefixOf tableOpenMarker l)
        (linesOf (renderFunctionBlock ⟨"Parse", false⟩)) = 0
    ∧ countLines (fun l => List.isPrefixOf tableLoopMarker l)
        (linesOf (renderFunctionBlock ⟨"Parse", false⟩)) = 0
    ∧ countLines (fun l => List.isPrefixOf caseNameMarker l)
        (linesOf (renderFunctionBlock ⟨"Parse", false⟩)) = 0
    ∧ countLines (fun l => List.isPrefixOf ("\t// TODO: Write test for ".data) l)
        (linesOf (renderFunctionBlock ⟨"Parse", false⟩)) = 1 :=
  flat_block_single_placeholder ⟨"goparse", [⟨"Parse", false⟩]⟩ ⟨"Parse", false⟩
    (by decide) (by decide) rfl

/-- C1 counterexample: in a directory batch a parse error on `bad.go`
aborts the whole walk: `good.go`, a later candidate that on its own would
generate a companion file, is never processed — the batch returns the
parse error and the file system still holds no file at all. -/
theorem per_unit_isolation_counterexample :
    (generateTestForFile "/r/src/good.go"
        (some ⟨"p", [Decl.funcDecl "Do" false]⟩) "" false ⟨[], []⟩).1
      = GenResult.generated "/r/src/good_test.go"
    ∧ GenerateTests
        (RootPath.dir "/r"
          [FTree.dir "src"
            [FTree.file "bad.go" none,
             FTree.file "good.go" (some ⟨"p", [Decl.funcDecl "Do" false]⟩)]])
        "" false ⟨[], []⟩
      = (some (BatchError.unitError GenResult.parseError), ⟨[], []⟩) := by decide

/-- C1 amended: a unit failure (parse error or existing companion) on a
candidate aborts the walk immediately — the result is that unit's error
and the state reached so far, independent of the remaining entries — while
a non-error outcome (skip or generate) lets the walk continue. -/
theorem walk_aborts_on_unit_error
    (outputDir : String) (tableTests : Bool) (base name : String)
    (parsed : Option GoFile) (rest : List FTree) (fs : FS)
    (hcand : isGoCandidate (joinPath base name) = true) :
    ((generateTestForFile (joinPath base name) parsed outputDir tableTests fs).1.isError = true →
      walkTreeList outputDir tableTests base (FTree.file name parsed :: rest) fs
        = (some (generateTestForFile (joinPath base name) parsed outputDir tableTests fs).1,
           (generateTestForFile (joinPath base name) parsed outputDir tableTests fs).2))
    ∧ ((generateTestForFile (joinPath base name) parsed outputDir tableTests fs).1.isError = false →
      walkTreeList outputDir tableTests base (FTree.file name parsed :: rest) fs
        = walkTreeList outputDir tableTests base rest
            (generateTestForFile (joinPath base name) parsed outputDir tableTests fs).2) := by
  constructor <;> intro h <;> simp [walkTreeList, walkTree, hcand, h]

/-- Witness for the amended C1: a parse error at the head of the sibling
list makes the walk return at once with the untouched state. -/
theorem walk_aborts_on_unit_error_witness :
    walkTreeList "" false "/r" [FTree.file "bad.go" none,
        FTree.file "ok.go" (some ⟨"p", [Decl.funcDecl "A" false]⟩)] ⟨[], []⟩
      = (some GenResult.parseError, ⟨[], []⟩) := by
  have h := (walk_aborts_on_unit_error "" false "/r" "bad.go" none
      [FTree.file "ok.go" (some ⟨"p", [Decl.funcDecl "A" false]⟩)] ⟨[], []⟩
      (by decide)).1 (by decide)
  rw [h]
  decide

/-- C2 counterexample: nothing filters dot-prefixed names — the walk
descends into `.hidden` and generates a companion for the unit inside it,
and the dot-prefixed file `.x.go` is itself discovered as a candidate and
gets a companion too. -/
theorem hidden_entries_counterexample :
    (GenerateTests
        (RootPath.dir "/r"
          [FTree.dir ".hidden"
            [FTree.file "util.go" (some ⟨"u", [Decl.funcDecl "Do" false]⟩)],
           FTree.file ".x.go" (some ⟨"x", [Decl.funcDecl "Go" false]⟩)])
        "" false ⟨[], []⟩).1 = none
    ∧ (GenerateTests
        (RootPath.dir "/r"
          [FTree.dir ".hidden"
            [FTree.file "util.go" (some ⟨"u", [Decl.funcDecl "Do" false]⟩)],
           FTree.file ".x.go" (some ⟨"x", [Decl.funcDecl "Go" false]⟩)])
        "" false ⟨[], []⟩).2.fileExists "/r/.hidden/util_test.go" = true
    ∧ (GenerateTests
        (RootPath.dir "/r"
          [FTree.dir ".hidden"
            [FTree.file "util.go" (some ⟨"u", [Decl.funcDecl "Do" false]⟩)],
           FTree.file ".x.go" (some ⟨"x", [Decl.funcDecl "Go" false]⟩)])
        "" false ⟨[], []⟩).2.fileExists "/r/.x_test.go" = true := by decide

/-- C2 amended: dot-prefixed entries receive no special treatment — the
walk descends into a dot-prefixed directory and a candidate unit inside it
is processed like any other: when it parses, has exported functions and
its companion path is free, the walk succeeds and the companion file is
created under the dot-prefixed directory. -/
theorem hidden_entries_processed
    (base dname fname : String) (node : GoFile) (outputDir : String)
    (tableTests : Bool) (fs : FS)
    (hdot : hasPrefixStr dname "." = true)
    (hcand : isGoCandidate (joinPath (joinPath base dname) fname) = true)
    (hfn : findExportedFunctions node.decls tableTests ≠ [])
    (hfree : fs.fileExists
        (computeOutputPath outputDir (joinPath (joinPath base dname) fname)) = false) :
    (walkTree outputDir tableTests base
        (FTree.dir dname [FTree.file fname (some node)]) fs).1 = none
    ∧ (walkTree outputDir tableTests base
        (FTree.dir dname [FTree.file fname (some node)]) fs).2.fileExists
        (computeOutputPath outputDir (joinPath (joinPath base dname) fname)) = true := by
  have hne := isEmpty_false _ hfn
  cases hod : (outputDir == "") with
  | true =>
      have e1 : generateTestForFile (joinPath (joinPath base dname) fname)
            (some node) outputDir tableTests fs
          = (GenResult.generated
               (computeOutputPath outputDir (joinPath (joinPath base dname) fname)),
             fs.createFile
               (computeOutputPath outputDir (joinPath (joinPath base dname) fname))
               (renderTestFile { Package := node.packageName,
                                 Functions := findExportedFunctions node.decls tableTests })) := by
        simp [generateTestForFile, hne, hod, hfree]
      constructor <;>
        simp [walkTree, walkTreeList, hcand, e1, GenResult.isError,
          FS.fileExists, FS.createFile]
  | false =>
      have e1 : generateTestForFile (joinPath (joinPath base dname) fname)
            (some node) outputDir tableTests fs
          = (GenResult.generated
               (computeOutputPath outputDir (joinPath (joinPath base dname) fname)),
             (fs.mkdirAll outputDir).createFile
               (computeOutputPath outputDir (joinPath (joinPath base dname) fname))
               (renderTestFile { Package := node.packageName,
                                 Functions := findExportedFunctions node.decls tableTests })) := by
        simp [generateTestForFile, hne, hod, FS.fileExists_mkdirAll, hfree]
      constructor <;>
        simp [walkTree, walkTreeList, hcand, e1, GenResult.isError,
          FS.fileExists, FS.createFile]

/-- Witness for the amended C2 at a `.hidden` directory. -/
theorem hidden_entries_processed_witness :
    (walkTree "" false "/r"
        (FTree.dir ".hidden"
          [FTree.file "util.go" (some ⟨"u", [Decl.funcDecl "Do" false]⟩)]) ⟨[], []⟩).1 = none
    ∧ (walkTree "" false "/r"
        (FTree.dir ".hidden"
          [FTree.file "util.go" (some ⟨"u", [Decl.funcDecl "Do" false]⟩)]) ⟨[], []⟩).2.fileExists
        (computeOutputPath "" (joinPath (joinPath "/r" ".hidden") "util.go")) = true :=
  hidden_entries_processed "/r" ".hidden" "util.go" ⟨"u", [Decl.funcDecl "Do" false]⟩
    "" false ⟨[], []⟩ (by decide) (by decide) (by decide) (by decide)

end GoForge
